import Mathlib

/-!
Shallow embedding of `gitlab-recurring-issues` (src/main.go, src/client.go).

Times (`time.Time`) are modelled as `Int` nanoseconds since the Unix epoch;
`time.Unix(0, 0)` is `0` and `t1.Before(t2)` is `t1 < t2`.

External effects are modelled by oracles:
  * the GitLab REST API (`xanzy/go-gitlab`) is a record of response functions,
    and every wrapper call the program issues is recorded in a trace of
    `Event`s, in program order;
  * the filesystem read and the directory walk are an oracle plus the list of
    entries `filepath.Walk` yields in order;
  * the pure external libraries (`cronexpr.Parse`, `frontmatter.Unmarshal`,
    `time.ParseDuration`) are deterministic function fields of `Libs`.

`log.Fatal` terminates the process, so embedded functions return an `Outcome`
distinguishing normal errors (returned to the caller) from fatal termination.
-/

namespace RecurringIssues

/-- `time.Time` as nanoseconds since the Unix epoch. -/
abbrev GoTime := Int

/-- Outcome of a Go function: normal return, returned error, or `log.Fatal`. -/
inductive Outcome (α : Type) where
  | ok (a : α)
  | err (e : String)
  | fatal (msg : String)
deriving Repr, DecidableEq

/-- The `metadata` struct of src/main.go: frontmatter fields plus the derived
`NextTime`. -/
structure Metadata where
  title : String
  description : String
  confidential : Bool
  assignees : List String
  labels : List String
  dueIn : String
  crontab : String
  epic : String
  projectId : Int
  nextTime : GoTime
deriving Repr, DecidableEq

/-- The fields of `gitlab.CreateIssueOptions` that the program can set.
Pointer fields of the Go struct are `Option`s; fields the program never
assigns (assignee ids, labels) stay at the Go zero value `none`. -/
structure CreateIssueOptions where
  title : Option String
  description : Option String
  confidential : Option Bool
  createdAt : Option GoTime
  dueDate : Option GoTime
  assigneeIDs : Option (List Int)
  labels : Option (List String)
deriving Repr, DecidableEq

/-- A created issue, as far as the program reads it (`newIssue.ID`). -/
structure Issue where
  id : Int
deriving Repr, DecidableEq

/-- A group, as far as the program reads it (`groups[0].ID`). -/
structure Group where
  id : Int
deriving Repr, DecidableEq

/-- An epic, as far as the program reads it (`epics[0].ID`). -/
structure Epic where
  id : Int
deriving Repr, DecidableEq

/-- A pipeline, as far as the program reads it (`pipelineInfo.ID`). -/
structure PipelineInfo where
  id : Int
deriving Repr, DecidableEq

/-- A CI job, as far as the program reads it (`job.Name`, `*job.FinishedAt`). -/
structure Job where
  name : String
  finishedAt : GoTime
deriving Repr, DecidableEq

/-- One remote-API call or file read issued by the program, with its
arguments; program runs produce a list of these in order. -/
inductive Event where
  | createIssueCall (projectId : Int) (opts : CreateIssueOptions)
  | listGroupsCall (search : String) (topLevelOnly : Bool) (orderBy : String)
  | listGroupEpicsCall (groupId : Int) (search : String)
      (includeDescendantGroups : Bool)
  | assignEpicIssueCall (groupId : Int) (epicId : Int) (issueId : Int)
  | listProjectPipelinesCall (projectId : String) (scope : String)
      (status : String) (orderBy : String)
  | listPipelineJobsCall (projectId : String) (pipelineId : Int)
  | readFileCall (path : String)
deriving Repr, DecidableEq

/-- A parsed cron expression (`cronexpr.Expression`): the program only uses
its `Next` method. -/
structure CronSched where
  next : GoTime → GoTime

/-- Deterministic pure external libraries used by the program. -/
structure Libs where
  cronParse : String → Except String CronSched
  unmarshal : String → Except String Metadata
  parseDuration : String → Except String Int

/-- Responses of the GitLab remote API, one field per wrapper call the
program issues; `newClient` is `gitlab.NewClient` (local construction,
no HTTP, hence not traced). -/
structure Api where
  newClient : Except String Unit
  createIssue : Int → CreateIssueOptions → Except String Issue
  listGroups : String → Bool → String → Except String (List Group)
  listGroupEpics : Int → String → Bool → Except String (List Epic)
  assignEpicIssue : Int → Int → Int → Except String Unit
  listProjectPipelines : String → String → String → String →
      Except String (List PipelineInfo)
  listPipelineJobs : String → Int → Except String (List Job)

/-- External world: API, libraries, filesystem, environment, and the clock
(`time.Now()`). `walkEntries` is the (path, walk error) sequence that
`filepath.Walk` yields over the template directory. -/
structure World where
  api : Api
  libs : Libs
  readFile : String → Except String String
  walkEntries : List (String × Option String)
  getenv : String → String
  now : GoTime

/-- The program's global configuration strings, read from the environment in
`main`. -/
structure Config where
  gitlabAPIToken : String
  ciAPIV4URL : String
  ciProjectID : String
  ciProjectDir : String
  ciJobName : String
  ciProjectRootNamespace : String
deriving Repr, DecidableEq

/-- Helper of `goFilepathExt`: scan the reversed path for the last dot of the
last element, collecting the extension characters. -/
def extAux : List Char → List Char → String
  | [], _ => ""
  | c :: rest, acc =>
    if c = '/' then ""
    else if c = '.' then String.mk ('.' :: acc)
    else extAux rest (c :: acc)

/-- Go `filepath.Ext`: the suffix beginning at the final dot in the final
slash-separated element of the path; empty when there is no dot. -/
def goFilepathExt (p : String) : String :=
  extAux p.data.reverse []

/-- Go `strconv.Atoi`: an optional sign, then one or more decimal digits,
within the 64-bit int range; anything else is an error. -/
def goAtoi (s : String) : Except String Int :=
  match s.data with
  | [] => Except.error "invalid syntax"
  | c :: rest =>
    let signDigits : Bool × List Char :=
      if c = '-' then (true, rest)
      else if c = '+' then (false, rest)
      else (false, c :: rest)
    let digits := signDigits.2
    if digits = [] then Except.error "invalid syntax"
    else if digits.all Char.isDigit then
      let n : Nat := digits.foldl (fun acc d => acc * 10 + (d.toNat - 48)) 0
      let v : Int := if signDigits.1 then -(n : Int) else (n : Int)
      if v < -(2 ^ 63) ∨ (2 ^ 63 - 1 : Int) < v then
        Except.error "value out of range"
      else Except.ok v
    else Except.error "invalid syntax"

/-- `parseMetadata` (src/main.go line 83): delegate to
`frontmatter.Unmarshal`. -/
def parseMetadata (libs : Libs) (contents : String) : Except String Metadata :=
  libs.unmarshal contents

/-- The `gitlab.CreateIssueOptions` value built by `createIssue`
(src/main.go lines 99-115): title, description, confidentiality flag and
creation time always; the due date only when `DueIn` is non-empty. -/
def buildIssueOptions (libs : Libs) (data : Metadata) :
    Except String CreateIssueOptions :=
  let options : CreateIssueOptions :=
    { title := some data.title
      description := some data.description
      confidential := some data.confidential
      createdAt := some data.nextTime
      dueDate := none
      assigneeIDs := none
      labels := none }
  if data.dueIn ≠ "" then
    match libs.parseDuration data.dueIn with
    | Except.error e => Except.error e
    | Except.ok duration =>
        Except.ok { options with dueDate := some (data.nextTime + duration) }
  else
    Except.ok options

/-- `getGroupIdFromNamespace` (src/main.go lines 151-173). -/
def getGroupIdFromNamespace (w : World) (cfg : Config) :
    Outcome Int × List Event :=
  match w.api.newClient with
  | Except.error e => (Outcome.err e, [])
  | Except.ok _ =>
    let ev := Event.listGroupsCall cfg.ciProjectRootNamespace true "id"
    match w.api.listGroups cfg.ciProjectRootNamespace true "id" with
    | Except.error e => (Outcome.err e, [ev])
    | Except.ok groups =>
      match groups with
      | [g] => (Outcome.ok g.id, [ev])
      | _ => (Outcome.fatal "Expected one group for namespace", [ev])

/-- `getEpicId` (src/main.go lines 175-196). -/
def getEpicId (w : World) (groupId : Int) (epicName : String) :
    Outcome Int × List Event :=
  match w.api.newClient with
  | Except.error e => (Outcome.err e, [])
  | Except.ok _ =>
    let ev := Event.listGroupEpicsCall groupId epicName false
    match w.api.listGroupEpics groupId epicName false with
    | Except.error e => (Outcome.err e, [ev])
    | Except.ok epics =>
      match epics with
      | [epic] => (Outcome.ok epic.id, [ev])
      | _ => (Outcome.fatal "Expected one epic for epicName", [ev])

/-- `createIssue` (src/main.go lines 93-149): build the options, resolve the
target project id, create the issue, then optionally link it to an epic. -/
def createIssue (w : World) (cfg : Config) (data : Metadata) :
    Outcome Unit × List Event :=
  match w.api.newClient with
  | Except.error e => (Outcome.err e, [])
  | Except.ok _ =>
    match buildIssueOptions w.libs data with
    | Except.error e => (Outcome.err e, [])
    | Except.ok options =>
      match goAtoi cfg.ciProjectID with
      | Except.error e => (Outcome.err e, [])
      | Except.ok envProjectId =>
        let issueProjectId : Int :=
          if data.projectId ≠ 0 then data.projectId else envProjectId
        let createEv := Event.createIssueCall issueProjectId options
        match w.api.createIssue issueProjectId options with
        | Except.error e => (Outcome.err e, [createEv])
        | Except.ok newIssue =>
          if data.epic ≠ "" then
            match getGroupIdFromNamespace w cfg with
            | (Outcome.ok groupId, tr1) =>
              match getEpicId w groupId data.epic with
              | (Outcome.ok epicId, tr2) =>
                let assignEv :=
                  Event.assignEpicIssueCall groupId epicId newIssue.id
                match w.api.assignEpicIssue groupId epicId newIssue.id with
                | Except.error e =>
                    (Outcome.err e, createEv :: (tr1 ++ tr2 ++ [assignEv]))
                | Except.ok _ =>
                    (Outcome.ok (), createEv :: (tr1 ++ tr2 ++ [assignEv]))
              | (Outcome.err e, tr2) =>
                  (Outcome.err e, createEv :: (tr1 ++ tr2))
              | (Outcome.fatal m, tr2) =>
                  (Outcome.fatal m, createEv :: (tr1 ++ tr2))
            | (Outcome.err e, tr1) => (Outcome.err e, createEv :: tr1)
            | (Outcome.fatal m, tr1) => (Outcome.fatal m, createEv :: tr1)
          else
            (Outcome.ok (), [createEv])

/-- The inner loop of `getLastRunTime` over one pipeline's jobs
(src/main.go lines 222-226): first job with the given name. -/
def findJobByName (name : String) : List Job → Option Job
  | [] => none
  | j :: rest => if j.name = name then some j else findJobByName name rest

/-- The outer loop of `getLastRunTime` over the listed pipelines
(src/main.go lines 216-227). -/
def getLastRunTimeLoop (w : World) (cfg : Config) :
    List PipelineInfo → Outcome GoTime × List Event
  | [] => (Outcome.ok 0, [])
  | p :: rest =>
    let ev := Event.listPipelineJobsCall cfg.ciProjectID p.id
    match w.api.listPipelineJobs cfg.ciProjectID p.id with
    | Except.error e => (Outcome.err e, [ev])
    | Except.ok jobs =>
      match findJobByName cfg.ciJobName jobs with
      | some job => (Outcome.ok job.finishedAt, [ev])
      | none =>
        let r := getLastRunTimeLoop w cfg rest
        (r.1, ev :: r.2)

/-- `getLastRunTime` (src/main.go lines 198-230): list the finished,
successful pipelines and return the finish time of the first job named
`ciJobName`; the epoch when none matches. -/
def getLastRunTime (w : World) (cfg : Config) : Outcome GoTime × List Event :=
  match w.api.newClient with
  | Except.error e => (Outcome.err e, [])
  | Except.ok _ =>
    let ev := Event.listProjectPipelinesCall cfg.ciProjectID "finished"
      "success" "updated_at"
    match w.api.listProjectPipelines cfg.ciProjectID "finished" "success"
        "updated_at" with
    | Except.error e => (Outcome.err e, [ev])
    | Except.ok pipelineInfos =>
      let r := getLastRunTimeLoop w cfg pipelineInfos
      (r.1, ev :: r.2)

/-- The walk callback returned by `processIssueFile` (src/main.go lines
40-81), applied to one walk entry. -/
def processIssueFile (w : World) (cfg : Config) (lastTime : GoTime)
    (path : String) (walkErr : Option String) : Outcome Unit × List Event :=
  match walkErr with
  | some e => (Outcome.fatal e, [])
  | none =>
    if goFilepathExt path ≠ ".md" then (Outcome.ok (), [])
    else
      match w.readFile path with
      | Except.error e => (Outcome.err e, [Event.readFileCall path])
      | Except.ok contents =>
        match parseMetadata w.libs contents with
        | Except.error e => (Outcome.err e, [Event.readFileCall path])
        | Except.ok data0 =>
          match w.libs.cronParse data0.crontab with
          | Except.error e => (Outcome.err e, [Event.readFileCall path])
          | Except.ok cronExpression =>
            let data := { data0 with nextTime := cronExpression.next lastTime }
            if data.nextTime < w.now then
              let r := createIssue w cfg data
              (r.1, Event.readFileCall path :: r.2)
            else
              (Outcome.ok (), [Event.readFileCall path])

/-- `filepath.Walk` applying the callback to each yielded entry in order,
stopping at the first error. -/
def walkFiles (w : World) (cfg : Config) (lastTime : GoTime) :
    List (String × Option String) → Outcome Unit × List Event
  | [] => (Outcome.ok (), [])
  | entry :: rest =>
    match processIssueFile w cfg lastTime entry.1 entry.2 with
    | (Outcome.ok _, tr) =>
      let r := walkFiles w cfg lastTime rest
      (r.1, tr ++ r.2)
    | (Outcome.err e, tr) => (Outcome.err e, tr)
    | (Outcome.fatal m, tr) => (Outcome.fatal m, tr)

/-- `main` (src/main.go lines 232-278): validate the six environment
variables in order, query the last run time, then walk the template
directory; any error is fatal. -/
def mainRun (w : World) : Outcome Unit × List Event :=
  if w.getenv "GITLAB_API_TOKEN" = "" then
    (Outcome.fatal "GITLAB_API_TOKEN not found", [])
  else if w.getenv "CI_API_V4_URL" = "" then
    (Outcome.fatal "CI_API_V4_URL not found", [])
  else if w.getenv "CI_PROJECT_ID" = "" then
    (Outcome.fatal "CI_PROJECT_ID not found", [])
  else if w.getenv "CI_PROJECT_DIR" = "" then
    (Outcome.fatal "CI_PROJECT_DIR not found", [])
  else if w.getenv "CI_JOB_NAME" = "" then
    (Outcome.fatal "CI_JOB_NAME not found", [])
  else if w.getenv "CI_PROJECT_ROOT_NAMESPACE" = "" then
    (Outcome.fatal "CI_PROJECT_ROOT_NAMESPACE not found", [])
  else
    let cfg : Config :=
      { gitlabAPIToken := w.getenv "GITLAB_API_TOKEN"
        ciAPIV4URL := w.getenv "CI_API_V4_URL"
        ciProjectID := w.getenv "CI_PROJECT_ID"
        ciProjectDir := w.getenv "CI_PROJECT_DIR"
        ciJobName := w.getenv "CI_JOB_NAME"
        ciProjectRootNamespace := w.getenv "CI_PROJECT_ROOT_NAMESPACE" }
    match getLastRunTime w cfg with
    | (Outcome.ok lastRunTime, tr) =>
      match walkFiles w cfg lastRunTime w.walkEntries with
      | (Outcome.ok _, tr2) => (Outcome.ok (), tr ++ tr2)
      | (Outcome.err e, tr2) => (Outcome.fatal e, tr ++ tr2)
      | (Outcome.fatal m, tr2) => (Outcome.fatal m, tr ++ tr2)
    | (Outcome.err e, tr) => (Outcome.fatal e, tr)
    | (Outcome.fatal m, tr) => (Outcome.fatal m, tr)

/-- The due-ness core (src/main.go lines 61-68): parse the cron expression,
compute the next occurrence after the last run, and compare with now. -/
def duenessCore (libs : Libs) (crontab : String) (lastTime now : GoTime) :
    Except String (GoTime × Bool) :=
  match libs.cronParse crontab with
  | Except.error e => Except.error e
  | Except.ok cronExpression =>
      let n := cronExpression.next lastTime
      Except.ok (n, decide (n < now))

/-- `n` is the first occurrence of the schedule `occurs` strictly after `t`:
the documented semantics of `cronexpr.Expression.Next`. -/
def IsFirstOccurrenceAfter (occurs : GoTime → Prop) (t n : GoTime) : Prop :=
  t < n ∧ occurs n ∧ ∀ u, t < u → occurs u → n ≤ u

/-- Specification-level search for the last run time: the finish time of the
first job named `name` in the pipeline order, the epoch when none matches. -/
def lastRunSpec (jobsOf : PipelineInfo → List Job) (name : String) :
    List PipelineInfo → GoTime
  | [] => 0
  | p :: rest =>
    match findJobByName name (jobsOf p) with
    | some j => j.finishedAt
    | none => lastRunSpec jobsOf name rest

/-- An event is one of the two pipeline-query calls of `getLastRunTime`. -/
def isPipelineQuery : Event → Prop
  | Event.listProjectPipelinesCall _ _ _ _ => True
  | Event.listPipelineJobsCall _ _ => True
  | _ => False

/-- An event belongs to the epic-linking phase of `createIssue`. -/
def isEpicLinkEvent : Event → Prop
  | Event.listGroupsCall _ _ _ => True
  | Event.listGroupEpicsCall _ _ _ => True
  | Event.assignEpicIssueCall _ _ _ => True
  | _ => False

instance (e : Event) : Decidable (isPipelineQuery e) := by
  cases e <;> simp [isPipelineQuery] <;> infer_instance

instance (e : Event) : Decidable (isEpicLinkEvent e) := by
  cases e <;> simp [isEpicLinkEvent] <;> infer_instance


/-! ## Concrete fixtures used by the witness theorems -/

/-- A schedule that occurs at every integer instant: `next` is the documented
first instant strictly after its argument. -/
def allSched : CronSched :=
  { next := fun t => t + 1 }

/-- Frontmatter text of the concrete template fixture. -/
def templateText : String :=
  "---\ntitle: Test Title\n---\nTest Content\n"

/-- The metadata the concrete fixture parses to. -/
def templateMeta : Metadata :=
  { title := "Test Title"
    description := "Test Content\n"
    confidential := false
    assignees := []
    labels := []
    dueIn := ""
    crontab := "* * * * * * *"
    epic := ""
    projectId := 0
    nextTime := 0 }

/-- Concrete deterministic libraries for the fixtures. -/
def libs0 : Libs :=
  { cronParse := fun s =>
      if s = "* * * * * * *" then Except.ok allSched
      else Except.error "syntax error"
    unmarshal := fun c =>
      if c = templateText then Except.ok templateMeta
      else Except.error "format error"
    parseDuration := fun s =>
      if s = "24h" then Except.ok 86400000000000
      else Except.error "invalid duration" }

/-- A fully successful concrete API. -/
def api0 : Api :=
  { newClient := Except.ok ()
    createIssue := fun _ _ => Except.ok { id := 7 }
    listGroups := fun _ _ _ => Except.ok [{ id := 11 }]
    listGroupEpics := fun _ _ _ => Except.ok [{ id := 13 }]
    assignEpicIssue := fun _ _ _ => Except.ok ()
    listProjectPipelines := fun _ _ _ _ => Except.ok [{ id := 21 }]
    listPipelineJobs := fun _ _ =>
      Except.ok [{ name := "recurring", finishedAt := 100 }] }

/-- Path of the concrete template fixture. -/
def tmplPath : String := "/repo/.gitlab/recurring_issue_templates/test.md"

/-- A concrete world: one template file due since the last run. -/
def w0 : World :=
  { api := api0
    libs := libs0
    readFile := fun p =>
      if p = tmplPath then Except.ok templateText
      else Except.error "no such file"
    walkEntries := [("/repo/.gitlab/recurring_issue_templates", none),
                    (tmplPath, none)]
    getenv := fun v =>
      if v = "GITLAB_API_TOKEN" then "tok"
      else if v = "CI_API_V4_URL" then "https://gitlab.example.com/api/v4"
      else if v = "CI_PROJECT_ID" then "42"
      else if v = "CI_PROJECT_DIR" then "/repo"
      else if v = "CI_JOB_NAME" then "recurring"
      else if v = "CI_PROJECT_ROOT_NAMESPACE" then "group"
      else ""
    now := 1000 }

/-- The configuration `main` reads in the concrete world. -/
def cfg0 : Config :=
  { gitlabAPIToken := "tok"
    ciAPIV4URL := "https://gitlab.example.com/api/v4"
    ciProjectID := "42"
    ciProjectDir := "/repo"
    ciJobName := "recurring"
    ciProjectRootNamespace := "group" }

/-- A world whose environment has no variables set. -/
def wEmpty : World :=
  { w0 with getenv := fun _ => "" }

instance exceptDecEq {ε α : Type} [DecidableEq ε] [DecidableEq α] :
    DecidableEq (Except ε α) := fun x y =>
  match x, y with
  | Except.error a, Except.error b =>
      if h : a = b then isTrue (by rw [h]) else isFalse (by simp [h])
  | Except.error _, Except.ok _ => isFalse (by simp)
  | Except.ok _, Except.error _ => isFalse (by simp)
  | Except.ok a, Except.ok b =>
      if h : a = b then isTrue (by rw [h]) else isFalse (by simp [h])

def opts0 : CreateIssueOptions :=
  { title := some "Test Title"
    description := some "Test Content\n"
    confidential := some false
    createdAt := some 1
    dueDate := none
    assigneeIDs := none
    labels := none }

def jobs0 : List Job := [{ name := "recurring", finishedAt := 100 }]

def jobsOther : List Job := [{ name := "other", finishedAt := 5 }]

def apiNoMatch : Api :=
  { api0 with listPipelineJobs := fun _ _ => Except.ok jobsOther }

def wNoMatch : World :=
  { w0 with api := apiNoMatch }

def optsTm : CreateIssueOptions :=
  { title := some "Test Title"
    description := some "Test Content\n"
    confidential := some false
    createdAt := some 0
    dueDate := none
    assigneeIDs := none
    labels := none }

def dEpic : Metadata :=
  { templateMeta with epic := "roadmap" }

def apiGroupFail : Api :=
  { api0 with listGroups := fun _ _ _ => Except.error "boom" }

def wGroupFail : World :=
  { w0 with api := apiGroupFail }

def cfgBadId : Config :=
  { cfg0 with ciProjectID := "fortytwo" }

/-- Descriptor fixtures differing only in assignees and labels. -/
def dAssignA : Metadata :=
  { templateMeta with assignees := ["alice"], labels := ["chore"] }

/-- Second descriptor fixture, same as `dAssignA` except those two lists. -/
def dAssignB : Metadata :=
  { templateMeta with assignees := ["bob", "carol"], labels := [] }

/-! ## Helper lemmas -/

lemma allSched_first (t : GoTime) :
    IsFirstOccurrenceAfter (fun _ => True) t (allSched.next t) :=
  ⟨lt_add_one t, trivial, fun _u hu _ => Int.lt_iff_add_one_le.mp hu⟩

lemma createIssue_trace_head (w : World) (cfg : Config) (d : Metadata)
    (opts : CreateIssueOptions) (pid : Int)
    (hclient : w.api.newClient = Except.ok ())
    (hopts : buildIssueOptions w.libs d = Except.ok opts)
    (hatoi : goAtoi cfg.ciProjectID = Except.ok pid) :
    ∃ tr, (createIssue w cfg d).2 =
      Event.createIssueCall (if d.projectId ≠ 0 then d.projectId else pid)
        opts :: tr := by
  simp only [createIssue, hclient, hopts, hatoi]
  repeat' split
  all_goals exact ⟨_, rfl⟩

lemma getLastRunTimeLoop_spec (w : World) (cfg : Config)
    (jobsOf : PipelineInfo → List Job) :
    ∀ ps : List PipelineInfo,
      (∀ p ∈ ps, w.api.listPipelineJobs cfg.ciProjectID p.id =
        Except.ok (jobsOf p)) →
      (getLastRunTimeLoop w cfg ps).1 =
        Outcome.ok (lastRunSpec jobsOf cfg.ciJobName ps) ∧
      ∀ ev ∈ (getLastRunTimeLoop w cfg ps).2, isPipelineQuery ev := by
  intro ps
  induction ps with
  | nil => exact fun _ => ⟨rfl, by simp [getLastRunTimeLoop]⟩
  | cons p rest ih =>
    intro h
    have hp := h p (List.mem_cons_self p rest)
    obtain ⟨ih1, ih2⟩ := ih fun q hq => h q (List.mem_cons_of_mem p hq)
    cases hf : findJobByName cfg.ciJobName (jobsOf p) with
    | some job =>
      constructor
      · simp [getLastRunTimeLoop, lastRunSpec, hp, hf]
      · simp [getLastRunTimeLoop, hp, hf, isPipelineQuery]
    | none =>
      constructor
      · simp [getLastRunTimeLoop, lastRunSpec, hp, hf, ih1]
      · simp only [getLastRunTimeLoop, hp, hf]
        intro ev hev
        rcases List.mem_cons.mp hev with h1 | h2
        · simp [h1, isPipelineQuery]
        · exact ih2 ev h2

lemma findJobByName_nomatch (name : String) :
    ∀ jobs : List Job, (∀ j ∈ jobs, j.name ≠ name) →
      findJobByName name jobs = none := by
  intro jobs
  induction jobs with
  | nil => exact fun _ => rfl
  | cons j rest ih =>
    intro h
    simp [findJobByName, h j (List.mem_cons_self j rest)]
    exact ih fun q hq => h q (List.mem_cons_of_mem j hq)

lemma lastRunSpec_nomatch (jobsOf : PipelineInfo → List Job) (name : String) :
    ∀ ps : List PipelineInfo,
      (∀ p ∈ ps, ∀ j ∈ jobsOf p, j.name ≠ name) →
      lastRunSpec jobsOf name ps = 0 := by
  intro ps
  induction ps with
  | nil => exact fun _ => rfl
  | cons p rest ih =>
    intro h
    simp [lastRunSpec,
      findJobByName_nomatch name (jobsOf p) (h p (List.mem_cons_self p rest))]
    exact ih fun q hq => h q (List.mem_cons_of_mem p hq)

lemma getGroupId_trace (w : World) (cfg : Config)
    (hclient : w.api.newClient = Except.ok ()) :
    (getGroupIdFromNamespace w cfg).2 =
      [Event.listGroupsCall cfg.ciProjectRootNamespace true "id"] := by
  simp only [getGroupIdFromNamespace, hclient]
  repeat' split
  all_goals rfl

lemma getEpicId_trace (w : World) (groupId : Int) (epicName : String)
    (hclient : w.api.newClient = Except.ok ()) :
    (getEpicId w groupId epicName).2 =
      [Event.listGroupEpicsCall groupId epicName false] := by
  simp only [getEpicId, hclient]
  repeat' split
  all_goals rfl

lemma createIssue_trace_nodup (w : World) (cfg : Config) (d : Metadata) :
    ((createIssue w cfg d).2).Nodup := by
  unfold createIssue
  cases hc : w.api.newClient with
  | error e => simp
  | ok u =>
    dsimp only
    cases hb : buildIssueOptions w.libs d with
    | error e => simp
    | ok options =>
      dsimp only
      cases ha : goAtoi cfg.ciProjectID with
      | error e => simp
      | ok pid =>
        dsimp only
        have hcu : w.api.newClient = Except.ok () := by rw [hc]
        split
        · exact List.nodup_singleton _
        · by_cases hepic : d.epic = ""
          · simp [hepic]
          · rw [if_pos hepic]
            rcases hg : getGroupIdFromNamespace w cfg with ⟨r1, tr1⟩
            have htr1 : tr1 = [Event.listGroupsCall
                cfg.ciProjectRootNamespace true "id"] := by
              have h2 := getGroupId_trace w cfg hcu
              rw [hg] at h2
              exact h2
            subst htr1
            cases r1 with
            | err e1 => simp
            | fatal m1 => simp
            | ok gid =>
              dsimp only
              rcases he : getEpicId w gid d.epic with ⟨r2, tr2⟩
              have htr2 : tr2 = [Event.listGroupEpicsCall gid d.epic
                  false] := by
                have h3 := getEpicId_trace w gid d.epic hcu
                rw [he] at h3
                exact h3
              subst htr2
              cases r2 with
              | err e2 => simp
              | fatal m2 => simp
              | ok eid =>
                dsimp only
                split
                · dsimp only
                  simp
                · dsimp only
                  simp

lemma createIssue_cases (w : World) (cfg : Config) (d : Metadata) :
    (createIssue w cfg d).2 = [] ∨
    (∃ pid opts, (createIssue w cfg d).2 = [Event.createIssueCall pid opts]) ∨
    (d.epic ≠ "" ∧ ∃ pid opts iss tr,
      (createIssue w cfg d).2 = Event.createIssueCall pid opts :: tr ∧
      w.api.createIssue pid opts = Except.ok iss ∧
      ∀ ev ∈ tr, isEpicLinkEvent ev) := by
  unfold createIssue
  cases hc : w.api.newClient with
  | error e => exact Or.inl rfl
  | ok u =>
    dsimp only
    cases hb : buildIssueOptions w.libs d with
    | error e => exact Or.inl rfl
    | ok options =>
      dsimp only
      cases ha : goAtoi cfg.ciProjectID with
      | error e => exact Or.inl rfl
      | ok pid =>
        dsimp only
        have hcu : w.api.newClient = Except.ok () := by rw [hc]
        split
        · exact Or.inr (Or.inl ⟨_, options, rfl⟩)
        · rename_i x newIssue heqci
          by_cases hepic : d.epic = ""
          · rw [if_neg (by simp [hepic])]
            exact Or.inr (Or.inl ⟨_, options, rfl⟩)
          · rw [if_pos hepic]
            rcases hg : getGroupIdFromNamespace w cfg with ⟨r1, tr1⟩
            have htr1 : tr1 = [Event.listGroupsCall
                cfg.ciProjectRootNamespace true "id"] := by
              have h2 := getGroupId_trace w cfg hcu
              rw [hg] at h2
              exact h2
            subst htr1
            cases r1 with
            | err e1 =>
              refine Or.inr (Or.inr ⟨hepic, _, options, newIssue, _, rfl,
                heqci, ?_⟩)
              simp [isEpicLinkEvent]
            | fatal m1 =>
              refine Or.inr (Or.inr ⟨hepic, _, options, newIssue, _, rfl,
                heqci, ?_⟩)
              simp [isEpicLinkEvent]
            | ok gid =>
              dsimp only
              rcases he : getEpicId w gid d.epic with ⟨r2, tr2⟩
              have htr2 : tr2 = [Event.listGroupEpicsCall gid d.epic
                  false] := by
                have h3 := getEpicId_trace w gid d.epic hcu
                rw [he] at h3
                exact h3
              subst htr2
              cases r2 with
              | err e2 =>
                refine Or.inr (Or.inr ⟨hepic, _, options, newIssue, _, rfl,
                  heqci, ?_⟩)
                simp [isEpicLinkEvent]
              | fatal m2 =>
                refine Or.inr (Or.inr ⟨hepic, _, options, newIssue, _, rfl,
                  heqci, ?_⟩)
                simp [isEpicLinkEvent]
              | ok eid =>
                dsimp only
                split
                · refine Or.inr (Or.inr ⟨hepic, _, options, newIssue, _,
                    rfl, heqci, ?_⟩)
                  simp [isEpicLinkEvent]
                · refine Or.inr (Or.inr ⟨hepic, _, options, newIssue, _,
                    rfl, heqci, ?_⟩)
                  simp [isEpicLinkEvent]

/-! ## Claim theorems -/

/-- Claim C1: for every processed template file, the derived next-occurrence
time is the first occurrence of the file's cron expression strictly after the
last successful run time (assuming the cron library meets its documented
`Next` semantics, `IsFirstOccurrenceAfter`), it is recorded as the new
issue's creation time, and the issue-creation call is made if and only if
that time is before the current time; otherwise the file produces no effect
beyond the read. -/
theorem processIssueFile_due_decision (w : World) (cfg : Config)
    (lastTime : GoTime) (path contents : String) (data0 : Metadata)
    (sched : CronSched) (occurs : GoTime → Prop) (opts : CreateIssueOptions)
    (pid : Int)
    (hext : goFilepathExt path = ".md")
    (hread : w.readFile path = Except.ok contents)
    (hmeta : w.libs.unmarshal contents = Except.ok data0)
    (hcron : w.libs.cronParse data0.crontab = Except.ok sched)
    (hfirst : IsFirstOccurrenceAfter occurs lastTime (sched.next lastTime))
    (hclient : w.api.newClient = Except.ok ())
    (hopts : buildIssueOptions w.libs
        { data0 with nextTime := sched.next lastTime } = Except.ok opts)
    (hatoi : goAtoi cfg.ciProjectID = Except.ok pid) :
    IsFirstOccurrenceAfter occurs lastTime (sched.next lastTime) ∧
    opts.createdAt = some (sched.next lastTime) ∧
    ((∃ p o, Event.createIssueCall p o ∈
        (processIssueFile w cfg lastTime path none).2) ↔
      sched.next lastTime < w.now) ∧
    (¬ sched.next lastTime < w.now →
      processIssueFile w cfg lastTime path none =
        (Outcome.ok (), [Event.readFileCall path])) := by
  have hcreated : opts.createdAt = some (sched.next lastTime) := by
    obtain ⟨t0, d0, c0, a0, l0, o0, g0⟩ := opts
    by_cases hdue : ({ data0 with nextTime := sched.next lastTime } :
        Metadata).dueIn = ""
    · simp [buildIssueOptions, hdue] at hopts
      simp_all
    · cases hpd : w.libs.parseDuration ({ data0 with
          nextTime := sched.next lastTime } : Metadata).dueIn with
      | error e => simp [buildIssueOptions, hdue, hpd] at hopts
      | ok duration =>
        simp [buildIssueOptions, hdue, hpd] at hopts
        simp_all
  refine ⟨hfirst, hcreated, ⟨?_, ?_⟩, ?_⟩
  · intro hex
    by_contra hlt
    simp [processIssueFile, hext, hread, parseMetadata, hmeta, hcron, hlt]
      at hex
  · intro hlt
    obtain ⟨tr, htr⟩ := createIssue_trace_head w cfg
      { data0 with nextTime := sched.next lastTime } opts pid hclient
      hopts hatoi
    refine ⟨if data0.projectId ≠ 0 then data0.projectId else pid, opts, ?_⟩
    simp [processIssueFile, hext, hread, parseMetadata, hmeta, hcron, hlt,
      htr]
  · intro hlt
    simp [processIssueFile, hext, hread, parseMetadata, hmeta, hcron, hlt]

theorem processIssueFile_due_decision_witness :
    ∃ p o, Event.createIssueCall p o ∈
      (processIssueFile w0 cfg0 0 tmplPath none).2 := by
  have h := processIssueFile_due_decision w0 cfg0 0 tmplPath templateText
    templateMeta allSched (fun _ => True) opts0 42 (by decide) (by decide)
    (by decide) rfl (allSched_first 0) rfl (by decide) (by decide)
  exact h.2.2.1.mpr (by decide)

/-- Claim C2: the due-ness core is a single deterministic computation of the
cron schedule string and the last-run timestamp: with the same cron library,
schedule string, last-run time, and clock, two evaluations of `duenessCore`
agree; and `processIssueFile`'s create-or-skip decision is exactly the
verdict of that computation. -/
theorem dueness_core_deterministic (w1 w2 : World) (s : String) (t : GoTime)
    (hlib : w1.libs.cronParse s = w2.libs.cronParse s) (hnow : w1.now = w2.now) :
    duenessCore w1.libs s t w1.now = duenessCore w2.libs s t w2.now ∧
    ∀ cfg path contents data0 n v,
      goFilepathExt path = ".md" →
      w1.readFile path = Except.ok contents →
      w1.libs.unmarshal contents = Except.ok data0 →
      data0.crontab = s →
      duenessCore w1.libs s t w1.now = Except.ok (n, v) →
      processIssueFile w1 cfg t path none =
        (if v then
          ((createIssue w1 cfg { data0 with nextTime := n }).1,
            Event.readFileCall path ::
              (createIssue w1 cfg { data0 with nextTime := n }).2)
        else (Outcome.ok (), [Event.readFileCall path])) := by
  constructor
  · unfold duenessCore
    rw [hlib, hnow]
  · intro cfg path contents data0 n v hext hread hmeta hcron hcore
    cases hparse : w1.libs.cronParse s with
    | error e => simp [duenessCore, hparse] at hcore
    | ok sched =>
      simp [duenessCore, hparse] at hcore
      obtain ⟨hn, hv⟩ := hcore
      subst hn
      subst hv
      simp [processIssueFile, hext, hread, parseMetadata, hmeta, hcron, hparse]

theorem dueness_core_deterministic_witness :
    processIssueFile w0 cfg0 0 tmplPath none =
      ((createIssue w0 cfg0 { templateMeta with nextTime := 1 }).1,
        Event.readFileCall tmplPath ::
          (createIssue w0 cfg0 { templateMeta with nextTime := 1 }).2) :=
  (dueness_core_deterministic w0 w0 "* * * * * * *" 0 rfl rfl).2 cfg0
    tmplPath templateText templateMeta 1 true (by decide) (by decide)
    (by decide) rfl (by decide)

/-- Claim C3: `getLastRunTime` obtains the last run time only by querying
the remote API — it returns the finish time of the first job named
`ciJobName` among the listed finished, successful pipelines (`lastRunSpec`),
and every effect of the run is one of the two pipeline-query calls; the
embedding has no other state. -/
theorem getLastRunTime_queries_api (w : World) (cfg : Config)
    (ps : List PipelineInfo) (jobsOf : PipelineInfo → List Job)
    (hclient : w.api.newClient = Except.ok ())
    (hps : w.api.listProjectPipelines cfg.ciProjectID "finished" "success"
        "updated_at" = Except.ok ps)
    (hjobs : ∀ p ∈ ps, w.api.listPipelineJobs cfg.ciProjectID p.id =
        Except.ok (jobsOf p)) :
    (getLastRunTime w cfg).1 =
      Outcome.ok (lastRunSpec jobsOf cfg.ciJobName ps) ∧
    ∀ ev ∈ (getLastRunTime w cfg).2, isPipelineQuery ev := by
  obtain ⟨h1, h2⟩ := getLastRunTimeLoop_spec w cfg jobsOf ps hjobs
  constructor
  · simp [getLastRunTime, hclient, hps, h1]
  · simp only [getLastRunTime, hclient, hps]
    intro ev hev
    rcases List.mem_cons.mp hev with hh | hh
    · simp [hh, isPipelineQuery]
    · exact h2 ev hh

theorem getLastRunTime_queries_api_witness :
    (getLastRunTime w0 cfg0).1 = Outcome.ok 100 :=
  Eq.trans
    (getLastRunTime_queries_api w0 cfg0 [{ id := 21 }] (fun _ => jobs0) rfl
      rfl (fun _ _ => rfl)).1
    (by decide)

/-- Claim C4: the assignee and label lists never influence the created
issue: two descriptors differing only in `assignees`/`labels` produce
identical `createIssue` runs, and the built request carries no assignee ids
and no labels (only title, description, confidentiality, creation time, and
optionally the due date). -/
theorem createIssue_ignores_assignees_labels (w : World) (cfg : Config)
    (d1 d2 : Metadata)
    (ht : d1.title = d2.title) (hd : d1.description = d2.description)
    (hc : d1.confidential = d2.confidential) (hdu : d1.dueIn = d2.dueIn)
    (hcr : d1.crontab = d2.crontab) (he : d1.epic = d2.epic)
    (hp : d1.projectId = d2.projectId) (hn : d1.nextTime = d2.nextTime) :
    createIssue w cfg d1 = createIssue w cfg d2 ∧
    ∀ opts, buildIssueOptions w.libs d1 = Except.ok opts →
      opts.assigneeIDs = none ∧ opts.labels = none := by
  constructor
  · cases d1
    cases d2
    simp only at ht hd hc hdu hcr he hp hn
    subst ht hd hc hdu hcr he hp hn
    rfl
  · intro opts hopts
    by_cases hdue : d1.dueIn = ""
    · simp [buildIssueOptions, hdue] at hopts
      simp [← hopts]
    · cases hpd : w.libs.parseDuration d1.dueIn with
      | error e => simp [buildIssueOptions, hdue, hpd] at hopts
      | ok duration =>
        simp [buildIssueOptions, hdue, hpd] at hopts
        simp [← hopts]

theorem createIssue_ignores_assignees_labels_witness :
    createIssue w0 cfg0 dAssignA = createIssue w0 cfg0 dAssignB :=
  (createIssue_ignores_assignees_labels w0 cfg0 dAssignA dAssignB
    rfl rfl rfl rfl rfl rfl rfl rfl).1

/-- Claim C5: the API wrapper calls perform no retry, backoff, or
partial-failure handling: in any run each call appears at most once in the
trace, and when the group lookup fails after `CreateIssue` succeeded, the
error is returned immediately with the already-issued creation call left as
is — nothing is retried or undone. -/
theorem createIssue_no_retry (w : World) (cfg : Config) (d : Metadata)
    (opts : CreateIssueOptions) (pid : Int) (e : String) (iss : Issue)
    (hepic : d.epic ≠ "")
    (hclient : w.api.newClient = Except.ok ())
    (hopts : buildIssueOptions w.libs d = Except.ok opts)
    (hatoi : goAtoi cfg.ciProjectID = Except.ok pid)
    (hcreate : w.api.createIssue
        (if d.projectId ≠ 0 then d.projectId else pid) opts = Except.ok iss)
    (hgroups : w.api.listGroups cfg.ciProjectRootNamespace true "id" =
        Except.error e) :
    (createIssue w cfg d).1 = Outcome.err e ∧
    (createIssue w cfg d).2 =
      [Event.createIssueCall (if d.projectId ≠ 0 then d.projectId else pid)
          opts,
        Event.listGroupsCall cfg.ciProjectRootNamespace true "id"] ∧
    ∀ w' cfg' d', ((createIssue w' cfg' d').2).Nodup := by
  have hg : getGroupIdFromNamespace w cfg = (Outcome.err e,
      [Event.listGroupsCall cfg.ciProjectRootNamespace true "id"]) := by
    simp [getGroupIdFromNamespace, hclient, hgroups]
  have hrun : createIssue w cfg d = (Outcome.err e,
      [Event.createIssueCall (if d.projectId ≠ 0 then d.projectId else pid)
          opts,
        Event.listGroupsCall cfg.ciProjectRootNamespace true "id"]) := by
    simp only [createIssue, hclient, hopts, hatoi, hcreate]
    rw [if_pos hepic, hg]
  exact ⟨by rw [hrun], by rw [hrun],
    fun w' cfg' d' => createIssue_trace_nodup w' cfg' d'⟩

theorem createIssue_no_retry_witness :
    (createIssue wGroupFail cfg0 dEpic).1 = Outcome.err "boom" :=
  (createIssue_no_retry wGroupFail cfg0 dEpic optsTm 42 "boom" { id := 7 }
    (by decide) rfl (by decide) (by decide) rfl rfl).1

/-- Claim C6: when the descriptor's project id is non-zero the issue is
created in that project, otherwise in the project parsed from
`CI_PROJECT_ID`; and if `CI_PROJECT_ID` is not a decimal integer,
`createIssue` returns the parse error having issued no call at all. -/
theorem createIssue_project_selection (w : World) (cfg : Config)
    (d : Metadata) (opts : CreateIssueOptions)
    (hclient : w.api.newClient = Except.ok ())
    (hopts : buildIssueOptions w.libs d = Except.ok opts) :
    (∀ e, goAtoi cfg.ciProjectID = Except.error e →
      (createIssue w cfg d).1 = Outcome.err e ∧
      (createIssue w cfg d).2 = []) ∧
    (∀ pid, goAtoi cfg.ciProjectID = Except.ok pid → d.projectId ≠ 0 →
      ∃ tr, (createIssue w cfg d).2 =
        Event.createIssueCall d.projectId opts :: tr) ∧
    (∀ pid, goAtoi cfg.ciProjectID = Except.ok pid → d.projectId = 0 →
      ∃ tr, (createIssue w cfg d).2 =
        Event.createIssueCall pid opts :: tr) := by
  refine ⟨?_, ?_, ?_⟩
  · intro e he
    constructor <;> simp [createIssue, hclient, hopts, he]
  · intro pid hp hnz
    obtain ⟨tr, htr⟩ := createIssue_trace_head w cfg d opts pid hclient
      hopts hp
    rw [if_pos hnz] at htr
    exact ⟨tr, htr⟩
  · intro pid hp hz
    obtain ⟨tr, htr⟩ := createIssue_trace_head w cfg d opts pid hclient
      hopts hp
    rw [if_neg (by simp [hz])] at htr
    exact ⟨tr, htr⟩

theorem createIssue_project_selection_witness :
    (createIssue w0 cfgBadId templateMeta).1 =
      Outcome.err "invalid syntax" ∧
    (createIssue w0 cfgBadId templateMeta).2 = [] :=
  (createIssue_project_selection w0 cfgBadId templateMeta optsTm rfl
    (by decide)).1 "invalid syntax" (by decide)

/-- Claim C7: epic linking is optional and ordered after creation: no
epic-related call ever happens when the epic name is empty; any epic-related
call implies the epic name is non-empty and the trace starts with a
creation call that succeeded, the epic calls strictly after it; and when the
epic name is non-empty and creation succeeds, the group lookup is indeed
issued. -/
theorem createIssue_epic_linking (w : World) (cfg : Config) (d : Metadata) :
    (d.epic = "" → ∀ ev ∈ (createIssue w cfg d).2, ¬ isEpicLinkEvent ev) ∧
    (∀ ev ∈ (createIssue w cfg d).2, isEpicLinkEvent ev →
      d.epic ≠ "" ∧ ∃ pid opts tr iss,
        (createIssue w cfg d).2 = Event.createIssueCall pid opts :: tr ∧
        w.api.createIssue pid opts = Except.ok iss ∧ ev ∈ tr) ∧
    (∀ opts pid iss, d.epic ≠ "" →
      w.api.newClient = Except.ok () →
      buildIssueOptions w.libs d = Except.ok opts →
      goAtoi cfg.ciProjectID = Except.ok pid →
      w.api.createIssue (if d.projectId ≠ 0 then d.projectId else pid) opts =
        Except.ok iss →
      Event.listGroupsCall cfg.ciProjectRootNamespace true "id" ∈
        (createIssue w cfg d).2) := by
  refine ⟨?_, ?_, ?_⟩
  · intro hepic ev hev hlink
    rcases createIssue_cases w cfg d with h | ⟨p, o, htr⟩ | ⟨hne, _⟩
    · rw [h] at hev
      simp at hev
    · rw [htr] at hev
      simp at hev
      subst hev
      simp [isEpicLinkEvent] at hlink
    · exact hne hepic
  · intro ev hev hlink
    rcases createIssue_cases w cfg d with h | ⟨p, o, htr⟩ |
      ⟨hne, p, o, iss, tr, htr, hok, hall⟩
    · rw [h] at hev
      simp at hev
    · rw [htr] at hev
      simp at hev
      subst hev
      simp [isEpicLinkEvent] at hlink
    · refine ⟨hne, p, o, tr, iss, htr, hok, ?_⟩
      rw [htr] at hev
      rcases List.mem_cons.mp hev with h1 | h1
      · subst h1
        simp [isEpicLinkEvent] at hlink
      · exact h1
  · intro opts pid iss hne hclient hopts hatoi hok
    simp only [createIssue, hclient, hopts, hatoi, hok]
    rw [if_pos hne]
    rcases hg : getGroupIdFromNamespace w cfg with ⟨r1, tr1⟩
    have htr1 : tr1 = [Event.listGroupsCall cfg.ciProjectRootNamespace
        true "id"] := by
      have h2 := getGroupId_trace w cfg hclient
      rw [hg] at h2
      exact h2
    subst htr1
    cases r1 with
    | err e1 => simp
    | fatal m1 => simp
    | ok gid =>
      dsimp only
      rcases he : getEpicId w gid d.epic with ⟨r2, tr2⟩
      have htr2 : tr2 = [Event.listGroupEpicsCall gid d.epic false] := by
        have h3 := getEpicId_trace w gid d.epic hclient
        rw [he] at h3
        exact h3
      subst htr2
      cases r2 with
      | err e2 => simp
      | fatal m2 => simp
      | ok eid =>
        dsimp only
        split
        · simp
        · simp

theorem createIssue_epic_linking_witness :
    Event.listGroupsCall cfg0.ciProjectRootNamespace true "id" ∈
      (createIssue w0 cfg0 dEpic).2 :=
  (createIssue_epic_linking w0 cfg0 dEpic).2.2 optsTm 42 { id := 7 }
    (by decide) rfl (by decide) (by decide) rfl

/-- Claim C8: if any of the six required environment variables is unset or
empty, `main` terminates fatally having queried no remote API and processed
no template file (its event trace is empty). -/
theorem mainRun_env_validation (w : World)
    (h : w.getenv "GITLAB_API_TOKEN" = "" ∨ w.getenv "CI_API_V4_URL" = "" ∨
         w.getenv "CI_PROJECT_ID" = "" ∨ w.getenv "CI_PROJECT_DIR" = "" ∨
         w.getenv "CI_JOB_NAME" = "" ∨
         w.getenv "CI_PROJECT_ROOT_NAMESPACE" = "") :
    (∃ m, (mainRun w).1 = Outcome.fatal m) ∧ (mainRun w).2 = [] := by
  unfold mainRun
  split_ifs with h1 h2 h3 h4 h5 h6
  · exact ⟨⟨_, rfl⟩, rfl⟩
  · exact ⟨⟨_, rfl⟩, rfl⟩
  · exact ⟨⟨_, rfl⟩, rfl⟩
  · exact ⟨⟨_, rfl⟩, rfl⟩
  · exact ⟨⟨_, rfl⟩, rfl⟩
  · exact ⟨⟨_, rfl⟩, rfl⟩
  · rcases h with h | h | h | h | h | h <;> simp_all

theorem mainRun_env_validation_witness :
    (∃ m, (mainRun wEmpty).1 = Outcome.fatal m) ∧ (mainRun wEmpty).2 = [] :=
  mainRun_env_validation wEmpty (Or.inl rfl)

/-- Claim C9: the walk callback skips every path whose extension is not
`.md` with no effect and no error: it returns nil having read no file,
parsed no metadata, and created no issue. -/
theorem processIssueFile_skips_non_markdown (w : World) (cfg : Config)
    (lastTime : GoTime) (path : String)
    (hext : goFilepathExt path ≠ ".md") :
    processIssueFile w cfg lastTime path none = (Outcome.ok (), []) := by
  simp [processIssueFile, hext]

theorem processIssueFile_skips_non_markdown_witness :
    processIssueFile w0 cfg0 0 "/repo/.gitlab/recurring_issue_templates" none =
      (Outcome.ok (), []) :=
  processIssueFile_skips_non_markdown w0 cfg0 0 _ (by decide)

/-- Claim C10: if no listed finished, successful pipeline has a job named
`ciJobName`, `getLastRunTime` returns the Unix epoch with no error; and any
template whose cron expression has an occurrence strictly between the epoch
and the current time is then treated as due (the create branch is taken). -/
theorem getLastRunTime_epoch_fallback (w : World) (cfg : Config)
    (ps : List PipelineInfo) (jobsOf : PipelineInfo → List Job)
    (path contents : String) (data0 : Metadata) (sched : CronSched)
    (occurs : GoTime → Prop) (o : GoTime)
    (hclient : w.api.newClient = Except.ok ())
    (hps : w.api.listProjectPipelines cfg.ciProjectID "finished" "success"
        "updated_at" = Except.ok ps)
    (hjobs : ∀ p ∈ ps, w.api.listPipelineJobs cfg.ciProjectID p.id =
        Except.ok (jobsOf p))
    (hnomatch : ∀ p ∈ ps, ∀ j ∈ jobsOf p, j.name ≠ cfg.ciJobName)
    (hext : goFilepathExt path = ".md")
    (hread : w.readFile path = Except.ok contents)
    (hmeta : w.libs.unmarshal contents = Except.ok data0)
    (hcron : w.libs.cronParse data0.crontab = Except.ok sched)
    (hfirst : IsFirstOccurrenceAfter occurs 0 (sched.next 0))
    (hocc : occurs o) (ho1 : (0 : GoTime) < o) (ho2 : o < w.now) :
    (getLastRunTime w cfg).1 = Outcome.ok 0 ∧
    processIssueFile w cfg 0 path none =
      ((createIssue w cfg { data0 with nextTime := sched.next 0 }).1,
        Event.readFileCall path ::
          (createIssue w cfg { data0 with nextTime := sched.next 0 }).2) := by
  constructor
  · have h1 := (getLastRunTimeLoop_spec w cfg jobsOf ps hjobs).1
    rw [lastRunSpec_nomatch jobsOf cfg.ciJobName ps hnomatch] at h1
    simp [getLastRunTime, hclient, hps, h1]
  · have hlt : sched.next 0 < w.now :=
      lt_of_le_of_lt (hfirst.2.2 o ho1 hocc) ho2
    simp [processIssueFile, hext, hread, parseMetadata, hmeta, hcron, hlt]

theorem getLastRunTime_epoch_fallback_witness :
    (getLastRunTime wNoMatch cfg0).1 = Outcome.ok 0 :=
  (getLastRunTime_epoch_fallback wNoMatch cfg0 [{ id := 21 }]
    (fun _ => jobsOther) tmplPath templateText templateMeta allSched
    (fun _ => True) 1 rfl rfl (fun _ _ => rfl)
    (fun _ _ j hj => by simp [jobsOther] at hj; subst hj; decide)
    (by decide) (by decide) (by decide) rfl (allSched_first 0) trivial
    (by decide) (by decide)).1

end RecurringIssues
